import Mathlib

/-!
Verification of the ctk-go cryptographic toolkit (ChaCha20, Poly1305,
ChaCha20-Poly1305, HChaCha20, XChaCha20, XChaCha20-Poly1305) against its
natural-language specification.

The Go sources are shallowly embedded: byte strings and word arrays are
`List Nat` (a Go `byte` is a value `< 256`, a `uint32` a value `< 2 ^ 32`;
the embedding applies `% 2 ^ 32` exactly where the Go `uint32` type forces
wrap-around), stateful instances are structures threaded explicitly, and
fallible results carry an `Option CtkError`.
-/

set_option maxRecDepth 100000

namespace Ctk

/-- Little-endian interpretation of a byte string as a natural number
(byte 0 is least significant). Used by `binary.LittleEndian.Uint32` loads
and by Poly1305's big-integer conversions (Go reverses the slice and calls
`big.Int.SetBytes`, which is big-endian; the composite is little-endian). -/
def leNum : List Nat → Nat
  | [] => 0
  | b :: bs => b + 256 * leNum bs

/-- Little-endian serialization of `n` into exactly `len` bytes. The source
extracts bytes as `byte(word)`, `byte(word >> 8)`, ... which is this list;
for Poly1305 the source takes the last 16 bytes of the big-endian
`big.Int.Bytes()` form and reverses them, which equals the first 16
little-endian bytes produced here (both are the low 128 bits). -/
def natToLE : Nat → Nat → List Nat
  | 0, _ => []
  | len + 1, n => n % 256 :: natToLE len (n / 256)

/-- Serialization of a list of 32-bit words into bytes, 4 little-endian
bytes per word, in word order. This is the byte-extraction loop
`result[index] = byte(word); result[index+1] = byte(word >> 8); ...`
that appears in `poly1305KeyGen`, `GenerateSubKey` and (byte list wise)
in `XORWithKeyStream`'s per-word XOR. -/
def serializeWords : List Nat → List Nat
  | [] => []
  | w :: ws => natToLE 4 w ++ serializeWords ws

/-- Reading of `binary.LittleEndian.Uint32(bs[off : off+4])`: the four bytes
at offset `off` interpreted little-endian. The `% 2 ^ 32` records the
`uint32` result type; it is a no-op for genuine bytes (each `< 256`). -/
def leWord (bs : List Nat) (off : Nat) : Nat :=
  leNum ((bs.drop off).take 4) % 2 ^ 32

/-- The Go `bits.RotateLeft32 x n` for `0 ≤ n < 32`:
`(x <<< n | x >>> (32 - n))` in 32-bit arithmetic. -/
def rotl32 (x n : Nat) : Nat :=
  ((x <<< n) % 2 ^ 32) ||| (x >>> (32 - n))

/-- Error values of the toolkit (Go uses string-based sentinel errors; the
only one reachable from the embedded operations is
`ErrInvalidTag = Error("invalid Poly1305 tag")`). -/
inductive CtkError where
  | invalidTag
deriving DecidableEq

namespace chacha20

/-- The free function `quarterRound(a, b, c, d uint32)` of package
`chacha20`: the ChaCha quarter round. Each `+=` is a `uint32` addition,
hence the `% 2 ^ 32`. -/
def quarterRound (a b c d : Nat) : Nat × Nat × Nat × Nat :=
  let a := (a + b) % 2 ^ 32
  let d := d ^^^ a
  let d := rotl32 d 16
  let c := (c + d) % 2 ^ 32
  let b := b ^^^ c
  let b := rotl32 b 12
  let a := (a + b) % 2 ^ 32
  let d := d ^^^ a
  let d := rotl32 d 8
  let c := (c + d) % 2 ^ 32
  let b := b ^^^ c
  let b := rotl32 b 7
  (a, b, c, d)

/-- A stateful instance of the ChaCha stream cipher (struct `ChaCha20`):
block counter, key as 8 words, nonce as 3 words, and the internal
16-word state. -/
structure ChaCha20 where
  counter : Nat
  key : List Nat
  nonce : List Nat
  state : List Nat
deriving DecidableEq

/-- The method `(s *ChaCha20) quarterRound(x, y, z, w int)`: applies the
free `quarterRound` to the state words at indices `x, y, z, w` and writes
the results back at those indices. -/
def quarterRoundAt (st : List Nat) (x y z w : Nat) : List Nat :=
  let r := quarterRound (st.getD x 0) (st.getD y 0) (st.getD z 0) (st.getD w 0)
  (((st.set x r.1).set y r.2.1).set z r.2.2.1).set w r.2.2.2

/-- The method `columnRound`: the quarter round on the four column index
groups (0,4,8,12), (1,5,9,13), (2,6,10,14), (3,7,11,15), in that order. -/
def columnRound (st : List Nat) : List Nat :=
  quarterRoundAt (quarterRoundAt (quarterRoundAt (quarterRoundAt st 0 4 8 12) 1 5 9 13)
    2 6 10 14) 3 7 11 15

/-- The method `diagonalRound`: the quarter round on the four diagonal
index groups (0,5,10,15), (1,6,11,12), (2,7,8,13), (3,4,9,14). -/
def diagonalRound (st : List Nat) : List Nat :=
  quarterRoundAt (quarterRoundAt (quarterRoundAt (quarterRoundAt st 0 5 10 15) 1 6 11 12)
    2 7 8 13) 3 4 9 14

/-- The method `doubleRound`: one column round then one diagonal round. -/
def doubleRound (st : List Nat) : List Nat :=
  diagonalRound (columnRound st)

/-- The function `initState(key [8]uint32, nonce [3]uint32, counter uint32)`:
constants `"expand 32-byte k"`, then the key words, the counter, and the
nonce words. -/
def initState (key nonce : List Nat) (counter : Nat) : List Nat :=
  [0x61707865, 0x3320646e, 0x79622d32, 0x6b206574] ++ key ++ [counter] ++ nonce

/-- The constructor `NewChaCha20(key [32]byte, nonce [12]byte,
counter [4]byte)`: little-endian word loads of key, counter and nonce,
and the initial state. -/
def NewChaCha20 (key nonce counter : List Nat) : ChaCha20 :=
  let k := [leWord key 0, leWord key 4, leWord key 8, leWord key 12,
            leWord key 16, leWord key 20, leWord key 24, leWord key 28]
  let b := leWord counter 0
  let n := [leWord nonce 0, leWord nonce 4, leWord nonce 8]
  { counter := b, key := k, nonce := n, state := initState k n b }

/-- The method `CreateBlock`: re-initialize the state from key, nonce and
current counter, save it, run 10 double rounds (`for range 10`), add the
saved pre-permutation state word-by-word in `uint32` arithmetic
(`s.state[i] += val`), increment the counter (`s.counter += 1`, a `uint32`
increment, hence `% 2 ^ 32`), and return the block. The returned instance
carries the mutations performed through the receiver pointer. -/
def CreateBlock (c : ChaCha20) : List Nat × ChaCha20 :=
  let st0 := initState c.key c.nonce c.counter
  let permuted := doubleRound^[10] st0
  let st := List.zipWith (fun s o => (s + o) % 2 ^ 32) permuted st0
  (st, { c with state := st, counter := (c.counter + 1) % 2 ^ 32 })

/-- One iteration of the block loop of `XORWithKeyStream`, fueled by the
precomputed block count: each iteration produces one keystream block and
XORs it byte-for-byte into the current 64-byte (or shorter, final) block
of the data. The Go body XORs `block[i+j] ^= byte(word >> 8*j)` for whole
4-byte groups and then the `< 4`-byte remainder with the bytes of the next
word (`rest[i] ^= byte(word); word >>= 8`); both assign
`out[i] = block[i] XOR byte i` of the little-endian serialization of the
keystream block, which is the `List.zipWith Nat.xor` below (`zipWith`
stops at the block's length, discarding the unused keystream bytes).
The Go loop indexes block `i` as `result[i*64 : (i+1)*64]` when
`(i+1)*64 < len(data)` and `result[i*64:]` otherwise, which is exactly the
current 64-byte chunk of the remaining data. -/
def XORWithKeyStreamLoop (c : ChaCha20) (fuel : Nat) (data : List Nat) :
    List Nat × ChaCha20 :=
  match fuel with
  | 0 => (data, c)
  | n + 1 =>
    let ks := CreateBlock c
    let processed := List.zipWith (fun x y => x ^^^ y) (data.take 64) (serializeWords ks.fst)
    let rest := XORWithKeyStreamLoop ks.snd n (data.drop 64)
    (processed ++ rest.fst, rest.snd)

/-- The method `XORWithKeyStream(data []byte)`: computes
`numBlocks = ceil(len(data) / 64)` (Go evaluates this via `math.Ceil` on
`float64`; `float64` conversion is exact below `2 ^ 53` and division by
the power of two 64 is exact, so this is the integer ceiling
`(len + 63) / 64`) and runs the block loop that many times. -/
def XORWithKeyStream (c : ChaCha20) (data : List Nat) : List Nat × ChaCha20 :=
  XORWithKeyStreamLoop c ((data.length + 63) / 64) data

/-- Modelled from the spec: the method `TwentyRounds` of `ChaCha20` is
called by `HChaCha20.GenerateSubKey` but its definition is not in the
sources; per spec section 4.4 it runs the same 20 rounds (10 double
rounds) on the state and, unlike `CreateBlock`, skips the feed-forward
addition — and it has no counter concept, so the counter is untouched. -/
def TwentyRounds (c : ChaCha20) : List Nat × ChaCha20 :=
  let st := doubleRound^[10] c.state
  (st, { c with state := st })

end chacha20

namespace poly1305

/-- The package constant `P`, initialized from the hex string
`"3fffffffffffffffffffffffffffffffb"` (the prime `2 ^ 130 - 5`). -/
def P : Nat := 0x3fffffffffffffffffffffffffffffffb

/-- A stateful instance of the Poly1305 one-time authenticator
(struct `Poly1305`): accumulator, clamped `r`, and `s`. -/
structure Poly1305 where
  accum : Nat
  r : Nat
  s : Nat
deriving DecidableEq

/-- The function `clamp(r [16]byte)`: clears the top 4 bits of bytes
3, 7, 11, 15 (`&= 15`) and the bottom 2 bits of bytes 4, 8, 12 (`&= 252`).
Go reads each byte it masks before any write to that index, and all seven
masked indices are distinct, so reading every masked byte from the
original array is equivalent to Go's sequential in-place updates. -/
def clamp (r : List Nat) : List Nat :=
  ((((((r.set 3 (Nat.land (r.getD 3 0) 15)).set 7
      (Nat.land (r.getD 7 0) 15)).set 11
      (Nat.land (r.getD 11 0) 15)).set 15
      (Nat.land (r.getD 15 0) 15)).set 4
      (Nat.land (r.getD 4 0) 252)).set 8
      (Nat.land (r.getD 8 0) 252)).set 12
      (Nat.land (r.getD 12 0) 252)

/-- The constructor `NewPoly1305(key [32]byte)`: `r` is the clamped first
16 key bytes and `s` the last 16, both little-endian (Go reverses the
slice and uses the big-endian `big.Int.SetBytes`); the accumulator starts
at zero. -/
def NewPoly1305 (key : List Nat) : Poly1305 :=
  { accum := 0,
    r := leNum (clamp (key.take 16)),
    s := leNum ((key.drop 16).take 16) }

/-- The block loop of `GenerateTag`: `numBlocks = ceil(len(data) / 16)`
(again exact below `2 ^ 53`, see `XORWithKeyStream`), and for each
`i < numBlocks` the block is `data[i*16 : (i+1)*16]` when
`(i+1)*16 < len(data)` and `data[i*16:]` otherwise; a single `0x01` byte
is appended, the result is read as a little-endian integer, and
`accum = ((accum + n) * r) mod P`. -/
def GenerateTagLoop (r : Nat) (data : List Nat) (acc0 : Nat) : Nat :=
  (List.range ((data.length + 15) / 16)).foldl
    (fun accum i =>
      ((accum + leNum ((if (i + 1) * 16 < data.length
        then (data.drop (i * 16)).take 16
        else data.drop (i * 16)) ++ [1])) * r) % P) acc0

/-- The method `GenerateTag(data []byte)`: runs the block loop from the
stored accumulator, stores the final accumulator back into the instance
(the accumulator is not reset), and returns `accum + s` truncated to its
low 16 bytes, little-endian (Go takes the last 16 bytes of the big-endian
byte form, zero-padded to at least 16 bytes, and reverses them). -/
def GenerateTag (p : Poly1305) (data : List Nat) : List Nat × Poly1305 :=
  let accum := GenerateTagLoop p.r data p.accum
  (natToLE 16 (accum + p.s), { p with accum := accum })

end poly1305

namespace chacha20poly1305

open chacha20 poly1305

/-- The package constant `ErrInvalidTag = Error("invalid Poly1305 tag")`. -/
def ErrInvalidTag : CtkError := CtkError.invalidTag

/-- A stateful instance of the ChaCha20-Poly1305 AEAD (struct
`ChaCha20Poly1305`): key, nonce, and the two primitive instances. -/
structure ChaCha20Poly1305 where
  key : List Nat
  nonce : List Nat
  chacha20 : ChaCha20
  poly1305 : Poly1305
deriving DecidableEq

/-- The function `padTo16Bytes(data []byte)`: returns `data` unchanged when
its length is a multiple of 16, otherwise appends `16 - len % 16` zero
bytes (the Go loop appends `0x00` that many times). -/
def padTo16Bytes (data : List Nat) : List Nat :=
  if data.length % 16 = 0 then data
  else data ++ List.replicate (16 - data.length % 16) 0

/-- The function `generatePoly1305Input(aad, ciphertext []byte)`: padded
aad, padded ciphertext, then the two 8-byte length fields. Go allocates
each length field as 8 zero bytes and writes `PutUint32(field,
uint32(len))` into it, so the field holds the 4 little-endian bytes of
`len mod 2 ^ 32` followed by 4 zero bytes. -/
def generatePoly1305Input (aad ciphertext : List Nat) : List Nat :=
  let paddedAad := padTo16Bytes aad
  let paddedCiphertext := padTo16Bytes ciphertext
  let aadLength := natToLE 4 (aad.length % 2 ^ 32) ++ [0, 0, 0, 0]
  let cipertextLength := natToLE 4 (ciphertext.length % 2 ^ 32) ++ [0, 0, 0, 0]
  paddedAad ++ paddedCiphertext ++ aadLength ++ cipertextLength

/-- The function `poly1305KeyGen(chacha20 *ChaCha20)`: produces one block
and serializes its first 8 words (256 bits) as the Poly1305 key. The Go
function mutates the passed instance through the pointer; the advanced
instance is returned alongside the key. -/
def poly1305KeyGen (cha : ChaCha20) : List Nat × ChaCha20 :=
  let b := CreateBlock cha
  (serializeWords (b.fst.take 8), b.snd)

/-- The constructor `NewChaCha20Poly1305(key [32]byte, nonce [12]byte)`:
a ChaCha20 instance at counter 0, whose first block becomes the Poly1305
key; the stored stream cipher has already consumed that block (counter 1). -/
def NewChaCha20Poly1305 (key nonce : List Nat) : ChaCha20Poly1305 :=
  let cha := NewChaCha20 key nonce [0x00, 0x00, 0x00, 0x00]
  let kg := poly1305KeyGen cha
  { key := key, nonce := nonce, chacha20 := kg.snd, poly1305 := NewPoly1305 kg.fst }

/-- The method `Encrypt(plaintext, aad []byte)`: ciphertext by keystream
XOR (the instance's counter is already 1), then the Poly1305 tag over the
framed aad and ciphertext. -/
def Encrypt (c : ChaCha20Poly1305) (plaintext aad : List Nat) :
    (List Nat × List Nat) × ChaCha20Poly1305 :=
  let ct := XORWithKeyStream c.chacha20 plaintext
  let poly1305Input := generatePoly1305Input aad ct.fst
  let tag := GenerateTag c.poly1305 poly1305Input
  ((ct.fst, tag.fst), { c with chacha20 := ct.snd, poly1305 := tag.snd })

/-- The method `Decrypt(ciphertext, aad []byte, tag [16]byte)`: computes
the Poly1305 tag over the framed aad and ciphertext first; on mismatch
(`tag != computedTag`, a Go array comparison of all 16 bytes) returns the
empty byte slice and `ErrInvalidTag`; only on match does it XOR the
ciphertext with the keystream. -/
def Decrypt (c : ChaCha20Poly1305) (ciphertext aad tag : List Nat) :
    (List Nat × Option CtkError) × ChaCha20Poly1305 :=
  let poly1305Input := generatePoly1305Input aad ciphertext
  let computed := GenerateTag c.poly1305 poly1305Input
  if tag ≠ computed.fst then
    (([], some ErrInvalidTag), { c with poly1305 := computed.snd })
  else
    let plaintext := XORWithKeyStream c.chacha20 ciphertext
    ((plaintext.fst, none), { c with chacha20 := plaintext.snd, poly1305 := computed.snd })

/-- Modelled from the spec: the exported `Poly1305KeyGen(block)` used by
package `xchacha20poly1305` is not in the sources; per spec section 4.3 it
takes the first 32 bytes (8 words, little-endian) of the given keystream
block as the Poly1305 key, exactly like the in-package `poly1305KeyGen`
byte-extraction loop over `block[0:8]`. -/
def Poly1305KeyGen (block : List Nat) : List Nat :=
  serializeWords (block.take 8)

end chacha20poly1305

namespace xchacha20

open chacha20

/-- A stateful instance of HChaCha20 (struct `HChaCha20`), wrapping a
ChaCha20 instance. -/
structure HChaCha20 where
  chacha20 : ChaCha20

/-- The constructor `NewHChaCha20(key [32]byte, nonce [16]byte)`: the first
4 nonce bytes take the place of the ChaCha20 counter and the remaining 12
bytes the place of the ChaCha20 nonce. -/
def NewHChaCha20 (key nonce : List Nat) : HChaCha20 :=
  let counter := nonce.take 4
  let slicedNonce := (nonce.drop 4).take 12
  { chacha20 := NewChaCha20 key slicedNonce counter }

/-- The method `GenerateSubKey()`: run 20 ChaCha20 rounds (without
feed-forward, via `TwentyRounds`), then serialize the first row (words
0-3) and the last row (words 12-15) little-endian into the 32-byte
subkey. -/
def GenerateSubKey (h : HChaCha20) : List Nat :=
  let st := (TwentyRounds h.chacha20).fst
  serializeWords (st.take 4) ++ serializeWords ((st.drop 12).take 4)

/-- A stateful instance of XChaCha20 (struct `XChaCha20`), wrapping a
ChaCha20 instance keyed with the derived subkey. -/
structure XChaCha20 where
  chacha20 : ChaCha20

/-- The constructor `NewXChaCha20(key [32]byte, nonce [24]byte,
counter [4]byte)`: HChaCha20 on the first 16 nonce bytes derives the
subkey; the ChaCha20 nonce is 4 zero bytes followed by the last 8 nonce
bytes. -/
def NewXChaCha20 (key nonce counter : List Nat) : XChaCha20 :=
  let hChaChaNonce := nonce.take 16
  let subKey := GenerateSubKey (NewHChaCha20 key hChaChaNonce)
  let chaChaNonce := [0x00, 0x00, 0x00, 0x00] ++ (nonce.drop 16).take 8
  { chacha20 := NewChaCha20 subKey chaChaNonce counter }

/-- The method `XORWithKeyStream(data []byte)`: delegates to the wrapped
ChaCha20 instance. -/
def XChaCha20.XORWithKeyStream (x : XChaCha20) (data : List Nat) :
    List Nat × XChaCha20 :=
  let r := chacha20.XORWithKeyStream x.chacha20 data
  (r.fst, { chacha20 := r.snd })

/-- Modelled from the spec: `XChaCha20.CreateBlock` is called by
`NewXChaCha20Poly1305` but is not in the sources; XChaCha20 delegates its
operations to the wrapped ChaCha20 core (spec section 4.5), so this is
`ChaCha20.CreateBlock` on the wrapped instance. -/
def XChaCha20.CreateBlock (x : XChaCha20) : List Nat × XChaCha20 :=
  let r := chacha20.CreateBlock x.chacha20
  (r.fst, { chacha20 := r.snd })

end xchacha20

namespace xchacha20poly1305

open chacha20 poly1305 xchacha20

/-- A stateful instance of the XChaCha20-Poly1305 AEAD (struct
`XChaCha20Poly1305`). -/
structure XChaCha20Poly1305 where
  xchacha20 : XChaCha20
  poly1305 : Poly1305

/-- The constructor `NewXChaCha20Poly1305(key [32]byte, nonce [24]byte)`:
an XChaCha20 instance at counter 0, whose first block feeds
`Poly1305KeyGen`; the stored stream cipher has consumed that block. -/
def NewXChaCha20Poly1305 (key nonce : List Nat) : XChaCha20Poly1305 :=
  let x := NewXChaCha20 key nonce [0x00, 0x00, 0x00, 0x00]
  let firstBlock := x.CreateBlock
  let polyKey := chacha20poly1305.Poly1305KeyGen firstBlock.fst
  { xchacha20 := firstBlock.snd, poly1305 := NewPoly1305 polyKey }

/-- The method `Encrypt(plaintext, aad []byte)` of `XChaCha20Poly1305`:
identical composition to the ChaCha20-Poly1305 `Encrypt`, with XChaCha20
as the stream cipher. -/
def Encrypt (x : XChaCha20Poly1305) (plaintext aad : List Nat) :
    (List Nat × List Nat) × XChaCha20Poly1305 :=
  let ct := x.xchacha20.XORWithKeyStream plaintext
  let poly1305Input := chacha20poly1305.generatePoly1305Input aad ct.fst
  let tag := GenerateTag x.poly1305 poly1305Input
  ((ct.fst, tag.fst), { xchacha20 := ct.snd, poly1305 := tag.snd })

/-- The method `Decrypt(ciphertext, aad []byte, tag [16]byte)` of
`XChaCha20Poly1305`: identical composition to the ChaCha20-Poly1305
`Decrypt`. -/
def Decrypt (x : XChaCha20Poly1305) (ciphertext aad tag : List Nat) :
    (List Nat × Option CtkError) × XChaCha20Poly1305 :=
  let poly1305Input := chacha20poly1305.generatePoly1305Input aad ciphertext
  let computed := GenerateTag x.poly1305 poly1305Input
  if tag ≠ computed.fst then
    (([], some chacha20poly1305.ErrInvalidTag), { x with poly1305 := computed.snd })
  else
    let plaintext := x.xchacha20.XORWithKeyStream ciphertext
    ((plaintext.fst, none), { xchacha20 := plaintext.snd, poly1305 := computed.snd })

end xchacha20poly1305

namespace Spec

open chacha20 poly1305

/-- Claim-side quarter round, transcribed from the spec sentence
`a+=b; d^=a; d=rotl(d,16); c+=d; b^=c; b=rotl(b,12); a+=b; d^=a;
d=rotl(d,8); c+=d; b^=c; b=rotl(b,7)`, all additions modulo `2 ^ 32`. -/
def specQuarterRound (a b c d : Nat) : Nat × Nat × Nat × Nat :=
  let a := (a + b) % 2 ^ 32
  let d := d ^^^ a
  let d := rotl32 d 16
  let c := (c + d) % 2 ^ 32
  let b := b ^^^ c
  let b := rotl32 b 12
  let a := (a + b) % 2 ^ 32
  let d := d ^^^ a
  let d := rotl32 d 8
  let c := (c + d) % 2 ^ 32
  let b := b ^^^ c
  let b := rotl32 b 7
  (a, b, c, d)

/-- Claim-side application of the quarter round to one index group of the
state. -/
def specApplyGroup (st : List Nat) (g : Nat × Nat × Nat × Nat) : List Nat :=
  let r := specQuarterRound (st.getD g.1 0) (st.getD g.2.1 0) (st.getD g.2.2.1 0)
    (st.getD g.2.2.2 0)
  (((st.set g.1 r.1).set g.2.1 r.2.1).set g.2.2.1 r.2.2.1).set g.2.2.2 r.2.2.2

/-- The column-round index groups named by the claim. -/
def columnGroups : List (Nat × Nat × Nat × Nat) :=
  [(0, 4, 8, 12), (1, 5, 9, 13), (2, 6, 10, 14), (3, 7, 11, 15)]

/-- The diagonal-round index groups named by the claim. -/
def diagonalGroups : List (Nat × Nat × Nat × Nat) :=
  [(0, 5, 10, 15), (1, 6, 11, 12), (2, 7, 8, 13), (3, 4, 9, 14)]

/-- Claim-side double round: a column round on the column groups, then a
diagonal round on the diagonal groups. -/
def specDoubleRound (st : List Nat) : List Nat :=
  diagonalGroups.foldl specApplyGroup (columnGroups.foldl specApplyGroup st)

/-- Claim-side initial ChaCha20 state, built from the byte-level inputs as
the claim states it: the four `"expand 32-byte k"` constant words, the
eight little-endian key words, the counter word, and the three
little-endian nonce words. -/
def specInitState (key nonce : List Nat) (counter : Nat) : List Nat :=
  [0x61707865, 0x3320646e, 0x79622d32, 0x6b206574] ++
    [leWord key 0, leWord key 4, leWord key 8, leWord key 12,
     leWord key 16, leWord key 20, leWord key 24, leWord key 28] ++
    [counter] ++
    [leWord nonce 0, leWord nonce 4, leWord nonce 8]

/-- Claim-side ChaCha20 block at a given counter: 10 double rounds applied
to the initial state, then the pre-permutation state added back
word-by-word modulo `2 ^ 32` (feed-forward). -/
def specChaChaBlock (key nonce : List Nat) (counter : Nat) : List Nat :=
  let st0 := specInitState key nonce counter
  List.zipWith (fun p o => (p + o) % 2 ^ 32) (specDoubleRound^[10] st0) st0

/-- Claim-side clamp: clear the top 4 bits of the bytes at offsets
3, 7, 11, 15 (keep `b % 16`) and the bottom 2 bits of the bytes at
offsets 4, 8, 12 (keep `b - b % 4`), phrased arithmetically. -/
def specClamp (r : List Nat) : List Nat :=
  ((((((r.set 3 (r.getD 3 0 % 16)).set 7
      (r.getD 7 0 % 16)).set 11
      (r.getD 11 0 % 16)).set 15
      (r.getD 15 0 % 16)).set 4
      (r.getD 4 0 - r.getD 4 0 % 4)).set 8
      (r.getD 8 0 - r.getD 8 0 % 4)).set 12
      (r.getD 12 0 - r.getD 12 0 % 4)

/-- Claim-side Poly1305 accumulation: the message is processed in
consecutive blocks of at most 16 bytes; each block gets a single `0x01`
byte appended, is read as a little-endian integer `n`, and
`accumulator = ((accumulator + n) * r) mod (2 ^ 130 - 5)`. -/
def specAccumulate (r acc : Nat) (msg : List Nat) : Nat :=
  if h : msg = [] then acc
  else specAccumulate r (((acc + leNum (msg.take 16 ++ [1])) * r) % (2 ^ 130 - 5))
    (msg.drop 16)
termination_by msg.length
decreasing_by
  simp only [List.length_drop]
  have : 0 < msg.length := List.length_pos.mpr h
  omega

/-- Claim-side authenticated input for the AEAD tag: aad, zero padding of
aad to a multiple of 16 bytes, ciphertext, zero padding of ciphertext to
a multiple of 16 bytes, `len(aad)` as an 8-byte little-endian integer,
and `len(ciphertext)` as an 8-byte little-endian integer. -/
def specPoly1305Input (aad ciphertext : List Nat) : List Nat :=
  aad ++ List.replicate ((16 - aad.length % 16) % 16) 0 ++
    ciphertext ++ List.replicate ((16 - ciphertext.length % 16) % 16) 0 ++
    natToLE 8 aad.length ++ natToLE 8 ciphertext.length

/-- Claim-side HChaCha20 state: the same 16-word ChaCha20 state with the
16-byte nonce occupying the last four words directly, its first 4 bytes
in the counter position. -/
def specHChaChaState (key nonce : List Nat) : List Nat :=
  [0x61707865, 0x3320646e, 0x79622d32, 0x6b206574] ++
    [leWord key 0, leWord key 4, leWord key 8, leWord key 12,
     leWord key 16, leWord key 20, leWord key 24, leWord key 28] ++
    [leWord nonce 0, leWord nonce 4, leWord nonce 8, leWord nonce 12]

/-- Claim-side HChaCha20 subkey: exactly 20 rounds (10 double rounds) on
the HChaCha20 state, no feed-forward, and the concatenation of state
words 0-3 and 12-15, each serialized little-endian. -/
def specSubKey (key nonce : List Nat) : List Nat :=
  let st := specDoubleRound^[10] (specHChaChaState key nonce)
  serializeWords (st.take 4 ++ (st.drop 12).take 4)

end Spec

/-! Helper lemmas about the byte and word encodings. -/

theorem natToLE_length (len n : Nat) : (natToLE len n).length = len := by
  induction len generalizing n with
  | zero => rfl
  | succ k ih => simp [natToLE, ih]

theorem natToLE_mod (len n : Nat) : natToLE len (n % 256 ^ len) = natToLE len n := by
  induction len generalizing n with
  | zero => rfl
  | succ k ih =>
    have h1 : n % 256 ^ (k + 1) % 256 = n % 256 :=
      Nat.mod_mod_of_dvd n (dvd_pow_self 256 k.succ_ne_zero)
    have h2 : n % 256 ^ (k + 1) / 256 = n / 256 % 256 ^ k := by
      rw [pow_succ']
      exact Nat.mod_mul_right_div_self n 256 (256 ^ k)
    simp only [natToLE, h1, h2, ih]

theorem serializeWords_length (ws : List Nat) :
    (serializeWords ws).length = 4 * ws.length := by
  induction ws with
  | nil => rfl
  | cons w ws ih =>
    simp [serializeWords, natToLE_length, ih]
    omega

theorem serializeWords_append (a b : List Nat) :
    serializeWords (a ++ b) = serializeWords a ++ serializeWords b := by
  induction a with
  | nil => rfl
  | cons w a ih => simp [serializeWords, ih]

theorem leWord_lt (bs : List Nat) (off : Nat) : leWord bs off < 2 ^ 32 :=
  Nat.mod_lt _ (by decide)

theorem getD_lt_of_forall_lt {l : List Nat} (h : ∀ b ∈ l, b < 256) (i : Nat) :
    l.getD i 0 < 256 := by
  by_cases hi : i < l.length
  · have : l.getD i 0 = l[i] := by simp [List.getD_eq_getElem, hi]
    rw [this]
    exact h _ (List.getElem_mem hi)
  · have : l.getD i 0 = 0 := by
      simp [List.getD, List.getElem?_eq_none (by omega : l.length ≤ i)]
    rw [this]
    decide

theorem land_fifteen {x : Nat} (h : x < 256) : Nat.land x 15 = x % 16 := by
  revert x h
  decide

theorem land_twofiftytwo {x : Nat} (h : x < 256) : Nat.land x 252 = x - x % 4 := by
  revert x h
  decide

theorem clamp_eq_specClamp {r : List Nat} (h : ∀ b ∈ r, b < 256) :
    poly1305.clamp r = Spec.specClamp r := by
  unfold poly1305.clamp Spec.specClamp
  rw [land_fifteen (getD_lt_of_forall_lt h 3), land_fifteen (getD_lt_of_forall_lt h 7),
    land_fifteen (getD_lt_of_forall_lt h 11), land_fifteen (getD_lt_of_forall_lt h 15),
    land_twofiftytwo (getD_lt_of_forall_lt h 4), land_twofiftytwo (getD_lt_of_forall_lt h 8),
    land_twofiftytwo (getD_lt_of_forall_lt h 12)]

/-! Helper lemmas about the ChaCha20 round functions. -/

theorem specApplyGroup_eq (st : List Nat) (x y z w : Nat) :
    Spec.specApplyGroup st (x, y, z, w) = chacha20.quarterRoundAt st x y z w := rfl

theorem doubleRound_eq_specDoubleRound : chacha20.doubleRound = Spec.specDoubleRound := by
  funext st
  simp only [Spec.specDoubleRound, Spec.columnGroups, Spec.diagonalGroups, List.foldl_cons,
    List.foldl_nil, specApplyGroup_eq]
  rfl

theorem length_quarterRoundAt (st : List Nat) (x y z w : Nat) :
    (chacha20.quarterRoundAt st x y z w).length = st.length := by
  simp [chacha20.quarterRoundAt]

theorem length_doubleRound (st : List Nat) :
    (chacha20.doubleRound st).length = st.length := by
  simp [chacha20.doubleRound, chacha20.columnRound, chacha20.diagonalRound,
    length_quarterRoundAt]

theorem length_iterate_doubleRound (n : Nat) (st : List Nat) :
    (chacha20.doubleRound^[n] st).length = st.length := by
  induction n generalizing st with
  | zero => rfl
  | succ n ih => rw [Function.iterate_succ_apply, ih, length_doubleRound]

theorem CreateBlock_snd_key (c : chacha20.ChaCha20) :
    ((chacha20.CreateBlock c).snd).key = c.key := rfl

theorem CreateBlock_snd_nonce (c : chacha20.ChaCha20) :
    ((chacha20.CreateBlock c).snd).nonce = c.nonce := rfl

theorem CreateBlock_snd_counter (c : chacha20.ChaCha20) :
    ((chacha20.CreateBlock c).snd).counter = (c.counter + 1) % 2 ^ 32 := rfl

theorem length_initState {c : chacha20.ChaCha20} (hk : c.key.length = 8)
    (hn : c.nonce.length = 3) :
    (chacha20.initState c.key c.nonce c.counter).length = 16 := by
  simp [chacha20.initState, hk, hn]

theorem length_CreateBlock_fst {c : chacha20.ChaCha20} (hk : c.key.length = 8)
    (hn : c.nonce.length = 3) : ((chacha20.CreateBlock c).fst).length = 16 := by
  simp only [chacha20.CreateBlock]
  rw [List.length_zipWith, length_iterate_doubleRound, length_initState hk hn]
  simp

/-! Helper lemmas about the keystream XOR loop. -/

theorem zipWith_xor_cancel :
    ∀ (a b : List Nat),
      a.length ≤ b.length →
      List.zipWith (fun x y => x ^^^ y) (List.zipWith (fun x y => x ^^^ y) a b) b = a := by
  intro a
  induction a with
  | nil => intro b h; simp
  | cons x a ih =>
    intro b h
    cases b with
    | nil => simp at h
    | cons k b =>
      have hx : x ^^^ k ^^^ k = x := by
        rw [Nat.xor_assoc, Nat.xor_self, Nat.xor_zero]
      simp only [List.zipWith, hx, List.cons.injEq, true_and]
      exact ih b (by simpa using h)

theorem xorLoop_fst_nil (fuel : Nat) :
    ∀ c : chacha20.ChaCha20, ((chacha20.XORWithKeyStreamLoop c fuel []).fst) = [] := by
  induction fuel with
  | zero => intro c; rfl
  | succ n ih => intro c; simp [chacha20.XORWithKeyStreamLoop, ih]

theorem xorLoop_length :
    ∀ (fuel : Nat) (c : chacha20.ChaCha20) (data : List Nat),
      data.length ≤ 64 * fuel → c.key.length = 8 → c.nonce.length = 3 →
      ((chacha20.XORWithKeyStreamLoop c fuel data).fst).length = data.length := by
  intro fuel
  induction fuel with
  | zero =>
    intro c data h hk hn
    simp only [chacha20.XORWithKeyStreamLoop]
  | succ n ih =>
    intro c data h hk hn
    have hser : (serializeWords (chacha20.CreateBlock c).fst).length = 64 := by
      rw [serializeWords_length, length_CreateBlock_fst hk hn]
    have hk' : ((chacha20.CreateBlock c).snd).key.length = 8 := by
      rw [CreateBlock_snd_key]; exact hk
    have hn' : ((chacha20.CreateBlock c).snd).nonce.length = 3 := by
      rw [CreateBlock_snd_nonce]; exact hn
    have hd : (data.drop 64).length ≤ 64 * n := by
      simp only [List.length_drop]
      omega
    simp only [chacha20.XORWithKeyStreamLoop, List.length_append, List.length_zipWith,
      hser, List.length_take, ih _ _ hd hk' hn', List.length_drop]
    omega

theorem xorLoop_counter :
    ∀ (fuel : Nat) (c : chacha20.ChaCha20) (data : List Nat),
      c.counter < 2 ^ 32 →
      ((chacha20.XORWithKeyStreamLoop c fuel data).snd).counter =
        (c.counter + fuel) % 2 ^ 32 := by
  intro fuel
  induction fuel with
  | zero =>
    intro c data h
    simpa [chacha20.XORWithKeyStreamLoop] using (Nat.mod_eq_of_lt h).symm
  | succ n ih =>
    intro c data h
    have hlt : ((chacha20.CreateBlock c).snd).counter < 2 ^ 32 := by
      rw [CreateBlock_snd_counter]
      exact Nat.mod_lt _ (by decide)
    simp only [chacha20.XORWithKeyStreamLoop]
    rw [ih _ _ hlt, CreateBlock_snd_counter]
    omega

theorem xorLoop_involution :
    ∀ (fuel : Nat) (c : chacha20.ChaCha20) (data : List Nat),
      data.length ≤ 64 * fuel → c.key.length = 8 → c.nonce.length = 3 →
      ((chacha20.XORWithKeyStreamLoop c fuel
        ((chacha20.XORWithKeyStreamLoop c fuel data).fst)).fst) = data := by
  intro fuel
  induction fuel with
  | zero =>
    intro c data h hk hn
    rfl
  | succ n ih =>
    intro c data h hk hn
    have hser : (serializeWords (chacha20.CreateBlock c).fst).length = 64 := by
      rw [serializeWords_length, length_CreateBlock_fst hk hn]
    have hk' : ((chacha20.CreateBlock c).snd).key.length = 8 := by
      rw [CreateBlock_snd_key]; exact hk
    have hn' : ((chacha20.CreateBlock c).snd).nonce.length = 3 := by
      rw [CreateBlock_snd_nonce]; exact hn
    by_cases h64 : 64 ≤ data.length
    · -- full first block
      have ht : (data.take 64).length = 64 := by
        simp [List.length_take]
        omega
      have hA : (List.zipWith (fun x y => x ^^^ y) (data.take 64)
          (serializeWords (chacha20.CreateBlock c).fst)).length = 64 := by
        simp [List.length_zipWith, ht, hser]
      simp only [chacha20.XORWithKeyStreamLoop]
      rw [List.take_append_eq_append_take, List.drop_append_eq_append_drop, hA,
        List.take_of_length_le (le_of_eq hA), List.drop_eq_nil_of_le (le_of_eq hA)]
      simp only [Nat.sub_self, List.take_zero, List.append_nil, List.drop_zero,
        List.nil_append]
      rw [zipWith_xor_cancel _ _ (by rw [ht, hser]),
        ih _ _ (by simp only [List.length_drop]; omega) hk' hn', List.take_append_drop]
    · -- short (final) block: the inner drop is empty
      have hle : data.length ≤ 64 := by omega
      have htake : data.take 64 = data := List.take_of_length_le hle
      have hdrop : data.drop 64 = [] := List.drop_eq_nil_of_le hle
      have hA2 : (List.zipWith (fun x y => x ^^^ y) data
          (serializeWords (chacha20.CreateBlock c).fst)).length = data.length := by
        simp [List.length_zipWith, hser]
        omega
      simp only [chacha20.XORWithKeyStreamLoop, htake, hdrop, xorLoop_fst_nil,
        List.append_nil]
      rw [List.take_of_length_le (by rw [hA2]; omega),
        List.drop_eq_nil_of_le (by rw [hA2]; omega), xorLoop_fst_nil, List.append_nil,
        zipWith_xor_cancel _ _ (by rw [hser]; omega)]

theorem XORWithKeyStream_fst_length {c : chacha20.ChaCha20} (data : List Nat)
    (hk : c.key.length = 8) (hn : c.nonce.length = 3) :
    ((chacha20.XORWithKeyStream c data).fst).length = data.length :=
  xorLoop_length _ _ _ (by omega) hk hn

theorem XORWithKeyStream_involution {c : chacha20.ChaCha20} (data : List Nat)
    (hk : c.key.length = 8) (hn : c.nonce.length = 3) :
    ((chacha20.XORWithKeyStream c ((chacha20.XORWithKeyStream c data).fst)).fst) = data := by
  have hlen := XORWithKeyStream_fst_length data hk hn
  unfold chacha20.XORWithKeyStream
  unfold chacha20.XORWithKeyStream at hlen
  rw [hlen]
  exact xorLoop_involution _ _ _ (by omega) hk hn

/-! Helper lemmas about the Poly1305 block loop. -/

theorem P_eq : poly1305.P = 2 ^ 130 - 5 := by decide

theorem GenerateTagLoop_eq_specAccumulate (r : Nat) (msg : List Nat) (acc : Nat) :
    poly1305.GenerateTagLoop r msg acc = Spec.specAccumulate r acc msg := by
  by_cases h : msg = []
  · subst h
    simp [poly1305.GenerateTagLoop, Spec.specAccumulate]
  · have hlen : 0 < msg.length := List.length_pos.mpr h
    have hrec := GenerateTagLoop_eq_specAccumulate r (msg.drop 16)
      (((acc + leNum (msg.take 16 ++ [1])) * r) % poly1305.P)
    have hstep : poly1305.GenerateTagLoop r msg acc =
        poly1305.GenerateTagLoop r (msg.drop 16)
          (((acc + leNum (msg.take 16 ++ [1])) * r) % poly1305.P) := by
      simp only [poly1305.GenerateTagLoop]
      have hnb : (msg.length + 15) / 16 = (msg.length - 1) / 16 + 1 := by omega
      have hm : ((msg.drop 16).length + 15) / 16 = (msg.length - 1) / 16 := by
        simp only [List.length_drop]
        omega
      rw [hnb, hm, List.range_succ_eq_map, List.foldl_cons, List.foldl_map]
      have hfirst : (if (0 + 1) * 16 < msg.length then (msg.drop (0 * 16)).take 16
          else msg.drop (0 * 16)) = msg.take 16 := by
        by_cases h16 : (0 + 1) * 16 < msg.length
        · simp [h16]
        · have hle : msg.length ≤ 16 := by omega
          simp [h16, List.take_of_length_le hle]
      rw [hfirst]
      have hshift :
          (fun (accum i : Nat) =>
            ((accum + leNum ((if (i + 1 + 1) * 16 < msg.length
              then (msg.drop ((i + 1) * 16)).take 16
              else msg.drop ((i + 1) * 16)) ++ [1])) * r) % poly1305.P) =
          (fun (accum i : Nat) =>
            ((accum + leNum ((if (i + 1) * 16 < (msg.drop 16).length
              then ((msg.drop 16).drop (i * 16)).take 16
              else (msg.drop 16).drop (i * 16)) ++ [1])) * r) % poly1305.P) := by
        funext accum i
        have hdd : (msg.drop 16).drop (i * 16) = msg.drop ((i + 1) * 16) := by
          rw [List.drop_drop]
          congr 1
          omega
        have hcond : ((i + 1 + 1) * 16 < msg.length) ↔
            ((i + 1) * 16 < (msg.drop 16).length) := by
          simp only [List.length_drop]
          omega
        rw [if_congr hcond (congrArg (List.take 16) hdd.symm) hdd.symm]
      rw [hshift]
    rw [hstep, hrec]
    conv_rhs => rw [Spec.specAccumulate]
    simp only [h, dite_false]
    rw [P_eq]
termination_by msg.length
decreasing_by
  simp only [List.length_drop]
  omega

/-! Helper lemmas about nonce slicing in HChaCha20. -/

theorem leWord_take_four (nonce : List Nat) : leWord (nonce.take 4) 0 = leWord nonce 0 := by
  simp [leWord, List.take_take]

theorem leWord_sliced_zero (nonce : List Nat) :
    leWord ((nonce.drop 4).take 12) 0 = leWord nonce 4 := by
  simp [leWord, List.take_take]

theorem leWord_sliced_four (nonce : List Nat) :
    leWord ((nonce.drop 4).take 12) 4 = leWord nonce 8 := by
  simp [leWord, List.drop_take, List.take_take, List.drop_drop]

theorem leWord_sliced_eight (nonce : List Nat) :
    leWord ((nonce.drop 4).take 12) 8 = leWord nonce 12 := by
  simp [leWord, List.drop_take, List.take_take, List.drop_drop]

/-! Claim theorems. -/

/-- C3: `CreateBlock` returns the 16-word block obtained by initializing the
state to the four `"expand 32-byte k"` constant words, the eight
little-endian key words, the counter word and the three little-endian nonce
words, applying 10 double rounds (a column round on index groups
(0,4,8,12),(1,5,9,13),(2,6,10,14),(3,7,11,15), then a diagonal round on
(0,5,10,15),(1,6,11,12),(2,7,8,13),(3,4,9,14), each quarter round executing
the stated add/xor/rotate sequence with additions modulo `2 ^ 32`), then
adding the pre-permutation state word-by-word modulo `2 ^ 32`
(feed-forward); as a side effect the counter is incremented by exactly 1
(in its 32-bit range). Stated for an instance with the given key, nonce and
counter bytes at an arbitrary current counter value `n`. -/
theorem createBlock_matches_spec (key nonce ctr : List Nat) (n : Nat) :
    chacha20.CreateBlock { chacha20.NewChaCha20 key nonce ctr with counter := n } =
      (Spec.specChaChaBlock key nonce n,
       { chacha20.NewChaCha20 key nonce ctr with
           state := Spec.specChaChaBlock key nonce n,
           counter := (n + 1) % 2 ^ 32 }) := by
  simp only [chacha20.CreateBlock, chacha20.NewChaCha20, Spec.specChaChaBlock,
    Spec.specInitState, chacha20.initState, doubleRound_eq_specDoubleRound]

/-- C8: `GenerateSubKey` builds the same 16-word ChaCha20 state with the
16-byte nonce occupying the last four words directly (its first 4 bytes in
the counter position), runs exactly 20 rounds (10 double rounds), skips the
feed-forward addition of the initial state, and returns the 32-byte
concatenation of state words 0-3 followed by state words 12-15, each
serialized little-endian. -/
theorem generateSubKey_matches_spec (key nonce : List Nat) :
    xchacha20.GenerateSubKey (xchacha20.NewHChaCha20 key nonce) =
      Spec.specSubKey key nonce := by
  simp only [xchacha20.GenerateSubKey, xchacha20.NewHChaCha20, chacha20.TwentyRounds,
    chacha20.NewChaCha20, Spec.specSubKey, serializeWords_append,
    doubleRound_eq_specDoubleRound, chacha20.initState, Spec.specHChaChaState,
    leWord_take_four, leWord_sliced_zero, leWord_sliced_four, leWord_sliced_eight,
    List.append_assoc, List.cons_append, List.nil_append]

/-- C4: `NewPoly1305` splits the 32-byte key into `r` (first 16 bytes, with
the top 4 bits of bytes at offsets 3,7,11,15 and the bottom 2 bits of bytes
at offsets 4,8,12 cleared) and `s` (last 16 bytes), both interpreted
little-endian, with the accumulator starting at 0; `GenerateTag` processes
the message in consecutive blocks of at most 16 bytes, appending a single
`0x01` byte to each block, interpreting the result as a little-endian
integer `n` and updating `accumulator = ((accumulator + n) * r) mod
(2 ^ 130 - 5)`; the returned tag is `(accumulator + s) mod 2 ^ 128`
serialized little-endian into 16 bytes. -/
theorem poly1305_matches_spec (key msg : List Nat) (hlen : key.length = 32)
    (hbytes : ∀ b ∈ key, b < 256) :
    poly1305.NewPoly1305 key =
      { accum := 0, r := leNum (Spec.specClamp (key.take 16)),
        s := leNum ((key.drop 16).take 16) } ∧
    (poly1305.GenerateTag (poly1305.NewPoly1305 key) msg).fst =
      natToLE 16 ((Spec.specAccumulate (leNum (Spec.specClamp (key.take 16))) 0 msg +
        leNum ((key.drop 16).take 16)) % 2 ^ 128) := by
  have hb : ∀ b ∈ key.take 16, b < 256 := fun b hm => hbytes b (List.mem_of_mem_take hm)
  have hclamp := clamp_eq_specClamp hb
  constructor
  · simp [poly1305.NewPoly1305, hclamp]
  · simp only [poly1305.GenerateTag, poly1305.NewPoly1305, hclamp]
    rw [GenerateTagLoop_eq_specAccumulate]
    rw [show (2 : Nat) ^ 128 = 256 ^ 16 by norm_num, natToLE_mod]

/-- C10: `GenerateTag` may be invoked more than once on the same instance;
the accumulator persists across calls rather than resetting — a second
call begins its block updates from the accumulator value left by the first
call instead of zero — while the `r` and `s` fields remain unchanged by
every call. -/
theorem generateTag_accumulator_persists (p : poly1305.Poly1305) (d1 d2 : List Nat) :
    ((poly1305.GenerateTag p d1).snd).r = p.r ∧
    ((poly1305.GenerateTag p d1).snd).s = p.s ∧
    ((poly1305.GenerateTag p d1).snd).accum = Spec.specAccumulate p.r p.accum d1 ∧
    (poly1305.GenerateTag ((poly1305.GenerateTag p d1).snd) d2).fst =
      natToLE 16 (Spec.specAccumulate p.r (Spec.specAccumulate p.r p.accum d1) d2 + p.s) := by
  refine ⟨rfl, rfl, ?_, ?_⟩
  · simp only [poly1305.GenerateTag]
    exact GenerateTagLoop_eq_specAccumulate p.r d1 p.accum
  · simp only [poly1305.GenerateTag]
    rw [GenerateTagLoop_eq_specAccumulate, GenerateTagLoop_eq_specAccumulate]

/-- C7: `XORWithKeyStream` is a length-preserving involution: for every
N-byte input on a fresh instance it returns exactly N bytes, advances the
32-bit counter by `ceil(N / 64)` (one `CreateBlock` per 64-byte block, the
final partial block consuming only the keystream bytes it needs), and
applying it on a fresh instance and then applying it again on a second
fresh instance with the same key, nonce and initial counter returns the
original data — the same operation serves encryption and decryption. -/
theorem xorWithKeyStream_roundtrip (key nonce ctr data : List Nat) :
    ((chacha20.XORWithKeyStream (chacha20.NewChaCha20 key nonce ctr) data).fst).length =
      data.length ∧
    ((chacha20.XORWithKeyStream (chacha20.NewChaCha20 key nonce ctr) data).snd).counter =
      ((chacha20.NewChaCha20 key nonce ctr).counter + (data.length + 63) / 64) % 2 ^ 32 ∧
    (chacha20.XORWithKeyStream (chacha20.NewChaCha20 key nonce ctr)
      ((chacha20.XORWithKeyStream (chacha20.NewChaCha20 key nonce ctr) data).fst)).fst =
      data := by
  have hk : (chacha20.NewChaCha20 key nonce ctr).key.length = 8 := rfl
  have hn : (chacha20.NewChaCha20 key nonce ctr).nonce.length = 3 := rfl
  have hc : (chacha20.NewChaCha20 key nonce ctr).counter < 2 ^ 32 := leWord_lt ctr 0
  refine ⟨XORWithKeyStream_fst_length data hk hn, ?_,
    XORWithKeyStream_involution data hk hn⟩
  unfold chacha20.XORWithKeyStream
  exact xorLoop_counter _ _ _ hc

/-- C2: for both AEAD variants, `Decrypt` computes the Poly1305 tag over
the framed aad and ciphertext and returns `ErrInvalidTag` if and only if
the supplied tag does not equal the computed tag; in the error case the
returned plaintext is empty (no plaintext bytes, partial or otherwise);
and the comparison covers all 16 tag bytes — a mismatch at any byte index
below 16, including the last, makes decryption fail. -/
theorem decrypt_fail_closed (c : chacha20poly1305.ChaCha20Poly1305)
    (x : xchacha20poly1305.XChaCha20Poly1305) (ciphertext aad tag : List Nat) :
    (((chacha20poly1305.Decrypt c ciphertext aad tag).fst.snd =
        some chacha20poly1305.ErrInvalidTag ↔
      tag ≠ (poly1305.GenerateTag c.poly1305
        (chacha20poly1305.generatePoly1305Input aad ciphertext)).fst) ∧
     (tag ≠ (poly1305.GenerateTag c.poly1305
        (chacha20poly1305.generatePoly1305Input aad ciphertext)).fst →
      (chacha20poly1305.Decrypt c ciphertext aad tag).fst =
        ([], some chacha20poly1305.ErrInvalidTag)) ∧
     (∀ i : Nat, i < 16 →
      tag.getD i 0 ≠ ((poly1305.GenerateTag c.poly1305
        (chacha20poly1305.generatePoly1305Input aad ciphertext)).fst).getD i 0 →
      (chacha20poly1305.Decrypt c ciphertext aad tag).fst =
        ([], some chacha20poly1305.ErrInvalidTag))) ∧
    (((xchacha20poly1305.Decrypt x ciphertext aad tag).fst.snd =
        some chacha20poly1305.ErrInvalidTag ↔
      tag ≠ (poly1305.GenerateTag x.poly1305
        (chacha20poly1305.generatePoly1305Input aad ciphertext)).fst) ∧
     (tag ≠ (poly1305.GenerateTag x.poly1305
        (chacha20poly1305.generatePoly1305Input aad ciphertext)).fst →
      (xchacha20poly1305.Decrypt x ciphertext aad tag).fst =
        ([], some chacha20poly1305.ErrInvalidTag)) ∧
     (∀ i : Nat, i < 16 →
      tag.getD i 0 ≠ ((poly1305.GenerateTag x.poly1305
        (chacha20poly1305.generatePoly1305Input aad ciphertext)).fst).getD i 0 →
      (xchacha20poly1305.Decrypt x ciphertext aad tag).fst =
        ([], some chacha20poly1305.ErrInvalidTag))) := by
  constructor
  · by_cases h : tag = (poly1305.GenerateTag c.poly1305
        (chacha20poly1305.generatePoly1305Input aad ciphertext)).fst
    · refine ⟨?_, ?_, ?_⟩
      · simp [chacha20poly1305.Decrypt, h]
      · intro hne
        exact absurd h hne
      · intro i hi hne
        exact absurd (by rw [h]) hne
    · refine ⟨?_, ?_, ?_⟩
      · simp [chacha20poly1305.Decrypt, h]
      · intro _
        simp [chacha20poly1305.Decrypt, h]
      · intro i hi hne
        simp [chacha20poly1305.Decrypt, h]
  · by_cases h : tag = (poly1305.GenerateTag x.poly1305
        (chacha20poly1305.generatePoly1305Input aad ciphertext)).fst
    · refine ⟨?_, ?_, ?_⟩
      · simp [xchacha20poly1305.Decrypt, h]
      · intro hne
        exact absurd h hne
      · intro i hi hne
        exact absurd (by rw [h]) hne
    · refine ⟨?_, ?_, ?_⟩
      · simp [xchacha20poly1305.Decrypt, h]
      · intro _
        simp [xchacha20poly1305.Decrypt, h]
      · intro i hi hne
        simp [xchacha20poly1305.Decrypt, h]

/-- C1: AEAD round trip — for every 32-byte key, nonce (12 bytes for
ChaCha20-Poly1305, 24 bytes for XChaCha20-Poly1305), plaintext and
associated data, if a freshly constructed instance's
`Encrypt(plaintext, aad)` returns `(ciphertext, tag)`, then a second
freshly constructed instance with the same key and nonce has
`Decrypt(ciphertext, aad, tag)` succeed without error and return exactly
the original plaintext. -/
theorem aead_round_trip (key nonce12 nonce24 plaintext aad : List Nat)
    (h32 : key.length = 32) (h12 : nonce12.length = 12) (h24 : nonce24.length = 24) :
    (chacha20poly1305.Decrypt (chacha20poly1305.NewChaCha20Poly1305 key nonce12)
      (chacha20poly1305.Encrypt (chacha20poly1305.NewChaCha20Poly1305 key nonce12)
        plaintext aad).fst.fst aad
      (chacha20poly1305.Encrypt (chacha20poly1305.NewChaCha20Poly1305 key nonce12)
        plaintext aad).fst.snd).fst = (plaintext, none) ∧
    (xchacha20poly1305.Decrypt (xchacha20poly1305.NewXChaCha20Poly1305 key nonce24)
      (xchacha20poly1305.Encrypt (xchacha20poly1305.NewXChaCha20Poly1305 key nonce24)
        plaintext aad).fst.fst aad
      (xchacha20poly1305.Encrypt (xchacha20poly1305.NewXChaCha20Poly1305 key nonce24)
        plaintext aad).fst.snd).fst = (plaintext, none) := by
  constructor
  · have hk : (chacha20poly1305.NewChaCha20Poly1305 key nonce12).chacha20.key.length = 8 :=
      rfl
    have hn : (chacha20poly1305.NewChaCha20Poly1305 key nonce12).chacha20.nonce.length = 3 :=
      rfl
    simp only [chacha20poly1305.Encrypt, chacha20poly1305.Decrypt]
    rw [if_neg (not_not_intro rfl)]
    rw [XORWithKeyStream_involution plaintext hk hn]
  · have hk :
        (xchacha20poly1305.NewXChaCha20Poly1305 key nonce24).xchacha20.chacha20.key.length =
          8 := rfl
    have hn :
        (xchacha20poly1305.NewXChaCha20Poly1305
          key nonce24).xchacha20.chacha20.nonce.length = 3 := rfl
    simp only [xchacha20poly1305.Encrypt, xchacha20poly1305.Decrypt,
      xchacha20.XChaCha20.XORWithKeyStream]
    rw [if_neg (not_not_intro rfl)]
    rw [XORWithKeyStream_involution plaintext hk hn]

/-- C5 (divergence witness): the Go code writes the ciphertext length into
the 8-byte length field with `PutUint32`, i.e. as `len mod 2 ^ 32` in 4
little-endian bytes followed by 4 zero bytes, while the code comment and
the claim require `len` as a full 8-byte little-endian integer. For a
ciphertext of `2 ^ 32` zero bytes and empty aad the code frame ends in 16
zero bytes, whereas the claimed frame has the byte 1 at position 12 of the
trailing 16 bytes (the fifth byte of the ciphertext-length field). -/
theorem frame_length_field_truncated :
    chacha20poly1305.generatePoly1305Input [] (List.replicate (2 ^ 32) 0) =
      List.replicate (2 ^ 32) 0 ++ List.replicate 16 0 ∧
    Spec.specPoly1305Input [] (List.replicate (2 ^ 32) 0) =
      List.replicate (2 ^ 32) 0 ++
        [0, 0, 0, 0, 0, 0, 0, 0, 0, 0, 0, 0, 1, 0, 0, 0] := by
  have hlenrep : (List.replicate (2 ^ 32) (0 : Nat)).length = 2 ^ 32 :=
    List.length_replicate (2 ^ 32) 0
  have hpad : chacha20poly1305.padTo16Bytes (List.replicate (2 ^ 32) (0 : Nat)) =
      List.replicate (2 ^ 32) 0 := by
    unfold chacha20poly1305.padTo16Bytes
    rw [hlenrep]
    norm_num
  have hnil : chacha20poly1305.padTo16Bytes [] = [] := rfl
  constructor
  · simp only [chacha20poly1305.generatePoly1305Input, hpad, hnil, List.nil_append,
      List.length_nil, hlenrep, List.append_assoc]
    congr 1
  · have h2 : (16 - (0 : Nat) % 16) % 16 = 0 := by norm_num
    have h3 : (16 - (2 : Nat) ^ 32 % 16) % 16 = 0 := by norm_num
    simp only [Spec.specPoly1305Input, List.length_nil, hlenrep, h2, h3,
      List.replicate_zero, List.nil_append, List.append_nil, List.append_assoc]
    congr 1

/-- C6 (divergence witness): the block counter is a `uint32` that the code
increments with plain wrap-around arithmetic; no overflow detection exists
anywhere in the package and no `CounterOverflow` error is ever returned.
Starting a fresh instance at counter `0xffffffff`, one `CreateBlock` call
wraps the counter to 0, the next call reproduces exactly the keystream
block of a fresh instance at counter 0 (keystream reuse), and
`XORWithKeyStream` across the wrap succeeds and leaves the counter at 1
instead of surfacing an error. -/
theorem counter_wraps_silently :
    ((chacha20.CreateBlock (chacha20.NewChaCha20 (List.replicate 32 0)
        (List.replicate 12 0) [255, 255, 255, 255])).snd).counter = 0 ∧
    (chacha20.CreateBlock ((chacha20.CreateBlock (chacha20.NewChaCha20 (List.replicate 32 0)
        (List.replicate 12 0) [255, 255, 255, 255])).snd)).fst =
      (chacha20.CreateBlock (chacha20.NewChaCha20 (List.replicate 32 0)
        (List.replicate 12 0) [0, 0, 0, 0])).fst ∧
    ((chacha20.XORWithKeyStream (chacha20.NewChaCha20 (List.replicate 32 0)
        (List.replicate 12 0) [255, 255, 255, 255]) (List.replicate 128 0)).snd).counter =
      1 := by
  decide

/-- C1 witness: the round trip evaluated at a concrete 32-byte key, 12- and
24-byte nonces, plaintext `[1, 2, 3]` and aad `[5]`. -/
theorem aead_round_trip_witness :
    (List.replicate 32 7 : List Nat).length = 32 ∧
    (List.replicate 12 9 : List Nat).length = 12 ∧
    (List.replicate 24 11 : List Nat).length = 24 ∧
    ((chacha20poly1305.Decrypt
        (chacha20poly1305.NewChaCha20Poly1305 (List.replicate 32 7) (List.replicate 12 9))
        (chacha20poly1305.Encrypt
          (chacha20poly1305.NewChaCha20Poly1305 (List.replicate 32 7) (List.replicate 12 9))
          [1, 2, 3] [5]).fst.fst [5]
        (chacha20poly1305.Encrypt
          (chacha20poly1305.NewChaCha20Poly1305 (List.replicate 32 7) (List.replicate 12 9))
          [1, 2, 3] [5]).fst.snd).fst = ([1, 2, 3], none) ∧
     (xchacha20poly1305.Decrypt
        (xchacha20poly1305.NewXChaCha20Poly1305 (List.replicate 32 7) (List.replicate 24 11))
        (xchacha20poly1305.Encrypt
          (xchacha20poly1305.NewXChaCha20Poly1305 (List.replicate 32 7) (List.replicate 24 11))
          [1, 2, 3] [5]).fst.fst [5]
        (xchacha20poly1305.Encrypt
          (xchacha20poly1305.NewXChaCha20Poly1305 (List.replicate 32 7) (List.replicate 24 11))
          [1, 2, 3] [5]).fst.snd).fst = ([1, 2, 3], none)) :=
  ⟨by decide, by decide, by decide,
   aead_round_trip (List.replicate 32 7) (List.replicate 12 9) (List.replicate 24 11)
     [1, 2, 3] [5] (by decide) (by decide) (by decide)⟩

/-- C2 witness: an all-zero 16-byte tag differs from the computed tag of a
fresh all-zero-key instance on empty ciphertext and aad, and decryption
with it fails closed. -/
theorem decrypt_fail_closed_witness :
    List.replicate 16 0 ≠
      (poly1305.GenerateTag
        (chacha20poly1305.NewChaCha20Poly1305 (List.replicate 32 0)
          (List.replicate 12 0)).poly1305
        (chacha20poly1305.generatePoly1305Input [] [])).fst ∧
    (chacha20poly1305.Decrypt
      (chacha20poly1305.NewChaCha20Poly1305 (List.replicate 32 0) (List.replicate 12 0))
      [] [] (List.replicate 16 0)).fst = ([], some chacha20poly1305.ErrInvalidTag) :=
  ⟨by decide,
   (decrypt_fail_closed
     (chacha20poly1305.NewChaCha20Poly1305 (List.replicate 32 0) (List.replicate 12 0))
     (xchacha20poly1305.NewXChaCha20Poly1305 (List.replicate 32 0) (List.replicate 24 0))
     [] [] (List.replicate 16 0)).1.2.1 (by decide)⟩

/-- C4 witness: the Poly1305 key-splitting and tag formula evaluated at the
concrete key `0, 1, ..., 31` and the message `[0, 1, 2]`. -/
theorem poly1305_matches_spec_witness :
    (List.range 32).length = 32 ∧
    (∀ b ∈ List.range 32, b < 256) ∧
    (poly1305.NewPoly1305 (List.range 32) =
      { accum := 0, r := leNum (Spec.specClamp ((List.range 32).take 16)),
        s := leNum (((List.range 32).drop 16).take 16) } ∧
     (poly1305.GenerateTag (poly1305.NewPoly1305 (List.range 32)) [0, 1, 2]).fst =
      natToLE 16 ((Spec.specAccumulate (leNum (Spec.specClamp ((List.range 32).take 16)))
        0 [0, 1, 2] + leNum (((List.range 32).drop 16).take 16)) % 2 ^ 128)) :=
  ⟨by decide, by decide,
   poly1305_matches_spec (List.range 32) [0, 1, 2] (by decide) (by decide)⟩

end Ctk
